import Mathlib

/-!
Verification of the batch VM collector and the kernel-config init parser of
kernel-hardening-checker.

The development shallowly embeds the two Python source files

  src/kernel_hardening_checker/config_files/cloud/gcp/kernel_collection.py
  src/kernel_hardening_checker/config_files/init_visualiser/kconfigs_init_parser.py

into Lean.  Strings are modelled as lists of characters (so that every
operation is structurally recursive and kernel-reducible); the interaction
with the external gcloud/gsutil CLI is modelled by a World record of oracle
answers, and the side effects of a job are recorded as an explicit event
trace.  All definitions are direct translations of the corresponding Python
functions; deviations from Python semantics that the model makes are stated
in the doc comment of each definition.
-/

/-! ## Python string primitives, modelled on List Char -/

/-- The ASCII whitespace characters recognised by Python's str.strip.
(Python additionally strips some Unicode space characters; the model covers
ASCII input.) -/
def pyIsSpace (c : Char) : Bool :=
  c == ' ' || c == '\t' || c == '\n' || c == '\r' || c == '\x0b' || c == '\x0c'

/-- Python str.strip(): remove leading and trailing whitespace. -/
def pyStrip (s : List Char) : List Char :=
  ((s.dropWhile pyIsSpace).reverse.dropWhile pyIsSpace).reverse

/-- Python's substring test (the `in` operator on strings). -/
def containsSub (pat : List Char) : List Char → Bool
  | [] => pat.isEmpty
  | c :: cs => pat.isPrefixOf (c :: cs) || containsSub pat cs

/-- Worker for pySplitlines, accumulating the current line in reverse. -/
def pySplitlinesGo : List Char → List Char → List (List Char)
  | [], acc => [acc.reverse]
  | c :: cs, acc =>
    if c == '\n' then acc.reverse :: pySplitlinesGo cs []
    else pySplitlinesGo cs (c :: acc)

/-- Python str.splitlines, modelled as splitting on the newline character.
(Python also splits on \x0b, \x0c, \x1c-\x1e and drops a trailing empty
line; the carriage return of a \r\n pair survives here but is removed by the
subsequent pyStrip, and an extra empty line never matches any of the
membership probes used below, so the difference is immaterial to the
functions modelled from the source.) -/
def pySplitlines (s : List Char) : List (List Char) :=
  pySplitlinesGo s []

/-- Worker for pyReplace.  The fuel argument only forces termination: every
step consumes at least one character of s, so fuel = s.length is enough and
the fuel never runs out on the calls made by pyReplace. -/
def pyReplaceAux (pat rep : List Char) : Nat → List Char → List Char
  | 0, s => s
  | _, [] => []
  | fuel + 1, c :: cs =>
    if !pat.isEmpty && pat.isPrefixOf (c :: cs) then
      rep ++ pyReplaceAux pat rep fuel ((c :: cs).drop pat.length)
    else
      c :: pyReplaceAux pat rep fuel cs

/-- Python str.replace: replace every (leftmost, non-overlapping) occurrence
of pat in s by rep. -/
def pyReplace (s pat rep : List Char) : List Char :=
  pyReplaceAux pat rep s.length s

/-! ## kernel_collection.py: VM name sanitisation (create_vm, lines 88-95) -/

/-- The character class [a-zA-Z0-9._-] of the specification.  This is also
exactly the per-character keep condition of the sanitisation step of
create_vm (Python's c.isalnum() agrees with Char.isAlphanum on ASCII
characters; the model covers ASCII image names). -/
def vmNameChar (c : Char) : Bool :=
  c.isAlphanum || c == '.' || c == '_' || c == '-'

/-- The VM name of create_vm just before the final trailing-hyphen strip:
prepend "temp-collect-", replace every character that is neither
alphanumeric nor one of . _ - by a hyphen, delete every ":/" substring,
turn every dot into a hyphen, and truncate to 63 characters
(kernel_collection.py lines 90-93). -/
def truncated_vm_name (image_name : List Char) : List Char :=
  let vm0 := "temp-collect-".toList ++ image_name
  let vm1 := vm0.map (fun c => if vmNameChar c then c else '-')
  let vm2 := pyReplace (pyReplace vm1 ":/".toList []) ".".toList "-".toList
  vm2.take 63

/-- The sanitised VM name derived by create_vm from an image name
(kernel_collection.py lines 90-95): the truncated name, with one trailing
hyphen removed when present. -/
def sanitize_vm_name (image_name : List Char) : List Char :=
  let vm3 := truncated_vm_name image_name
  if vm3.getLast? = some '-' then vm3.dropLast else vm3

/-! ## kernel_collection.py: the job state machine of create_vm -/

/-- The externally visible actions of one job, in the order they are issued:
the VM-create command, the completion check of poll iteration k, the
20-second sleep of the poll loop, and the VM-delete command. -/
inductive Event : Type
  | create
  | check (k : Nat)
  | sleep
  | delete
deriving DecidableEq

/-- Oracle answers of the external environment for one job.  createExc: the
create command raises an exception; createErr: the create command output
contains "ERROR" (line 115); excAt k: the completion check of poll
iteration k raises an exception; complete k: check_vm_completion returns
True at poll iteration k (either expected files are listed in the bucket or
the completion-status=success metadata key is present, lines 71-86);
elapsed k: the value of time.time() - start_time observed at poll
iteration k (line 126), in whole seconds. -/
structure World where
  createExc : Bool
  createErr : Bool
  excAt : Nat → Bool
  complete : Nat → Bool
  elapsed : Nat → Nat

/-- The poll loop of create_vm (lines 125-138), from poll iteration k on.
Per iteration: if the elapsed time exceeds the timeout, break with
completion_signal = False; otherwise run the completion check, which either
raises (Except.error), confirms completion (break with True), or reports
nothing yet, in which case the job sleeps 20 seconds and polls again.  The
returned list is the trace of events of the loop.  The fuel argument bounds
the number of iterations the model unfolds; none is returned only when the
fuel runs out, which the theorems below exclude by hypothesis (the real
loop always terminates because the elapsed time grows past any timeout). -/
def pollLoop (timeout : Nat) (w : World) : Nat → Nat → Option (Except Unit Bool × List Event)
  | 0, _ => none
  | fuel + 1, k =>
    if timeout < w.elapsed k then some (Except.ok false, [])
    else if w.excAt k then some (Except.error (), [Event.check k])
    else if w.complete k then some (Except.ok true, [Event.check k])
    else
      match pollLoop timeout w fuel (k + 1) with
      | none => none
      | some (r, tr) => some (r, Event.check k :: Event.sleep :: tr)

/-- The body of create_vm after the VM name is derived (lines 100-153),
returning the job's boolean result together with the trace of issued
commands.  Branches, in source order: an exception during the create
command is caught by the except handler, which deletes the VM and returns
False (lines 150-153); "ERROR" in the create output returns False with no
deletion (lines 115-118); otherwise the poll loop runs, the VM is deleted
(line 141), and the completion signal decides the result (lines 143-148).
An exception inside the loop is caught by the same handler, which issues
the deletion of line 152. -/
def create_vm (timeout fuel : Nat) (w : World) : Option (Bool × List Event) :=
  if w.createExc then some (false, [Event.create, Event.delete])
  else if w.createErr then some (false, [Event.create])
  else
    match pollLoop timeout w fuel 0 with
    | none => none
    | some (Except.ok signal, tr) => some (signal, Event.create :: (tr ++ [Event.delete]))
    | some (Except.error _, tr) => some (false, Event.create :: (tr ++ [Event.delete]))

/-! ## kernel_collection.py: ensure_gcs_bucket (lines 34-69) -/

/-- The three configuration commands the bucket ensurer can issue:
gsutil mb, gsutil versioning set on, and gsutil lifecycle set (with the
14-day age deletion rule of lines 50-59). -/
inductive BucketOp : Type
  | mb
  | versioningSet
  | lifecycleSet
deriving DecidableEq

/-- The existence test of ensure_gcs_bucket (line 37): the bucket is taken
to be absent when the (stripped) output of the gsutil ls -b probe contains
"BucketNotFoundException" or is empty. -/
def bucketAbsent (lsOutput : List Char) : Bool :=
  containsSub "BucketNotFoundException".toList lsOutput || lsOutput.isEmpty

/-- How a run of ensure_gcs_bucket ends: a normal return; the fatal
sys.exit(1) of line 45 when no project can be determined; or a
CalledProcessError propagating out of one of the run_command calls made
with the default check=True (lines 40, 47, 48, 64 — the exception is not
caught anywhere in ensure_gcs_bucket). -/
inductive BucketOutcome : Type
  | ok
  | fatalExit
  | raised
deriving DecidableEq

/-- Oracle answers of the external environment for one run of
ensure_gcs_bucket: the stdout of the gsutil ls -b probe (check=False,
line 35, already stripped by run_command); whether the gcloud
config get-value project call raises (it uses check=True, line 40) and its
stripped stdout when it does not; and whether each of the three
configuration commands fails — gsutil mb (line 47), gsutil versioning set
(line 48) and gsutil lifecycle set (line 64) all go through run_command
with the default check=True, so a non-zero exit raises CalledProcessError
and aborts the rest of the sequence. -/
structure BucketWorld where
  lsOutput : List Char
  projectExc : Bool
  projectOutput : List Char
  mbExc : Bool
  versioningExc : Bool
  lifecycleExc : Bool

/-- ensure_gcs_bucket (lines 34-69): the outcome of the run together with
the configuration commands issued, in source order.  A failing command is
recorded as issued (its process was invoked once) but the
CalledProcessError it raises propagates out of the function, so every
later command of the sequence is not issued at all.  The source strips the
project output a second time (line 41) before testing it. -/
def ensure_gcs_bucket (w : BucketWorld) : BucketOutcome × List BucketOp :=
  if bucketAbsent w.lsOutput then
    if w.projectExc then (BucketOutcome.raised, [])
    else
      let project := pyStrip w.projectOutput
      if project.isEmpty then (BucketOutcome.fatalExit, [])
      else if w.mbExc then (BucketOutcome.raised, [BucketOp.mb])
      else if w.versioningExc then
        (BucketOutcome.raised, [BucketOp.mb, BucketOp.versioningSet])
      else if w.lifecycleExc then
        (BucketOutcome.raised, [BucketOp.mb, BucketOp.versioningSet, BucketOp.lifecycleSet])
      else (BucketOutcome.ok, [BucketOp.mb, BucketOp.versioningSet, BucketOp.lifecycleSet])
  else (BucketOutcome.ok, [])

/-! ## kernel_collection.py: process_images (lines 155-195) -/

/-- The per-row filter of the CSV loop of process_images (lines 169-171):
a row is kept when it has at least two fields and its second field is
non-empty after stripping; the kept image spec is the pair of the stripped
first and second fields. -/
def row_to_image (row : List (List Char)) : Option (List Char × List Char) :=
  match row with
  | f0 :: f1 :: _ => if (pyStrip f1).isEmpty then none else some (pyStrip f0, pyStrip f1)
  | _ => none

/-- The CSV-to-image-list step of process_images (lines 165-171): the first
row (the header) is discarded by next(reader) and each remaining row passes
through row_to_image.  none models the StopIteration escaping from
next(reader) on an input with no rows at all. -/
def parse_images (rows : List (List (List Char))) : Option (List (List Char × List Char)) :=
  match rows with
  | [] => none
  | _hdr :: rest => some (rest.filterMap row_to_image)

/-- The counter accumulation of process_images (lines 179-192): one result
per dispatched job, True incrementing successful and False incrementing
failed. -/
def tally (results : List Bool) : Nat × Nat :=
  results.foldl (fun acc r => if r then (acc.1 + 1, acc.2) else (acc.1, acc.2 + 1)) (0, 0)

/-- The summary counters (successful, failed) computed by process_images
from the parsed CSV rows and the per-job outcomes (lines 165-194).  The
outcome function stands for the boolean create_vm returns for each image;
the thread pool only fans the independent jobs out, every counter update
happens after the corresponding future resolved (lines 188-192).  none
models the fatal exits: an input without rows, or zero valid images
(sys.exit(1), line 175). -/
def process_images (rows : List (List (List Char)))
    (outcome : List Char × List Char → Bool) : Option (Nat × Nat) :=
  match parse_images rows with
  | none => none
  | some [] => none
  | some images => some (tally (images.map outcome))

/-! ## kconfigs_init_parser.py -/

/-- The config option mapping STACK_OPTIONS (kconfigs_init_parser.py lines
11-15), in Python dict insertion order. -/
def STACK_OPTIONS : List (List Char × List Char) :=
  [("CONFIG_INIT_STACK_NONE".toList, "none".toList),
   ("CONFIG_INIT_STACK_ALL_PATTERN".toList, "pattern".toList),
   ("CONFIG_INIT_STACK_ALL_ZERO".toList, "zero".toList)]

/-- HEAP_OPTION (line 16). -/
def HEAP_OPTION : List Char := "CONFIG_INIT_ON_ALLOC_DEFAULT_ON".toList

/-- DEFAULT_VALUE (line 17). -/
def DEFAULT_VALUE : List Char := "unknown".toList

/-- get_config_status (lines 20-25): some true when the line "option=y" is
present, some false when the line "# option is not set" is present, none
otherwise.  The Python set of lines is modelled as the list of lines;
membership is the only operation performed on it. -/
def get_config_status (option : List Char) (config_lines : List (List Char)) : Option Bool :=
  if config_lines.contains (option ++ "=y".toList) then some true
  else if config_lines.contains ("# ".toList ++ option ++ " is not set".toList) then some false
  else none

/-- The stripped line set built by parse_config (line 30) from the file
text. -/
def config_lines_of (text : List Char) : List (List Char) :=
  (pySplitlines text).map pyStrip

/-- The stack part of parse_config (lines 32-41): take the value of the
first option of STACK_OPTIONS whose status is True (the for loop with
break), defaulting to DEFAULT_VALUE; then, if the result is still
DEFAULT_VALUE and all three stack options have status False, report "none".
-/
def init_stack_of (config_lines : List (List Char)) : List Char :=
  let init_stack :=
    match STACK_OPTIONS.find? (fun p => get_config_status p.1 config_lines == some true) with
    | some p => p.2
    | none => DEFAULT_VALUE
  if init_stack == DEFAULT_VALUE &&
      STACK_OPTIONS.all (fun p => get_config_status p.1 config_lines == some false) then
    "none".toList
  else init_stack

/-- The heap part of parse_config (lines 43-45). -/
def init_heap_of (config_lines : List (List Char)) : List Char :=
  match get_config_status HEAP_OPTION config_lines with
  | some true => "zero".toList
  | some false => "none".toList
  | none => DEFAULT_VALUE

/-- The record parse_config returns: Python returns a dict with exactly the
keys name, init_stack and init_heap (lines 47-51 and 54). -/
structure ConfigSummary where
  name : List Char
  init_stack : List Char
  init_heap : List Char
deriving DecidableEq

/-- parse_config (lines 28-54) as a function of the file stem and of the
outcome of reading the file: some text when path.read_text succeeds with
that text, none when it raises.  The except handler (lines 52-54) returns
the default summary; nothing after the read in the try body can raise. -/
def parse_config (stem : List Char) (content : Option (List Char)) : ConfigSummary :=
  match content with
  | some text =>
    let config_lines := config_lines_of text
    { name := stem
      init_stack := init_stack_of config_lines
      init_heap := init_heap_of config_lines }
  | none => { name := stem, init_stack := DEFAULT_VALUE, init_heap := DEFAULT_VALUE }

/-! ## Helper lemmas about the string primitives -/

/-- Replacing a single-character pattern is a pointwise map (any fuel at
least the length of the list is enough). -/
theorem pyReplaceAux_singleton (a b : Char) :
    ∀ (fuel : Nat) (s : List Char), s.length ≤ fuel →
      pyReplaceAux [a] [b] fuel s = s.map (fun c => if a = c then b else c) := by
  intro fuel
  induction fuel with
  | zero =>
    intro s hs
    cases s with
    | nil => simp [pyReplaceAux]
    | cons c cs => simp at hs
  | succ n ih =>
    intro s hs
    cases s with
    | nil => simp [pyReplaceAux]
    | cons c cs =>
      have hcs : cs.length ≤ n := by simpa using Nat.le_of_succ_le_succ (by simpa using hs)
      by_cases h : a = c
      · subst h
        simp [pyReplaceAux, List.isPrefixOf, ih cs hcs]
      · have hba : (a == c) = false := beq_eq_false_iff_ne.2 h
        simp [pyReplaceAux, List.isPrefixOf, hba, h, ih cs hcs]

/-- Replacing a pattern whose first character never occurs in the list
leaves the list unchanged. -/
theorem pyReplaceAux_not_occurs (a : Char) (tail rep : List Char) :
    ∀ (fuel : Nat) (s : List Char), a ∉ s →
      pyReplaceAux (a :: tail) rep fuel s = s := by
  intro fuel
  induction fuel with
  | zero => intro s _; simp [pyReplaceAux]
  | succ n ih =>
    intro s hs
    cases s with
    | nil => simp [pyReplaceAux]
    | cons c cs =>
      have hac : (a == c) = false := beq_eq_false_iff_ne.2 (by
        intro h; exact hs (h ▸ List.mem_cons_self a cs))
      have hcs : a ∉ cs := fun h => hs (List.mem_cons_of_mem c h)
      simp [pyReplaceAux, List.isPrefixOf, hac, ih cs hcs]

/-! ## Claim C1: the sanitised VM name -/

/-- Every character produced by the per-character sanitisation step of
create_vm lies in the class [a-zA-Z0-9._-]. -/
theorem vmNameChar_of_mem_sanitized (im : List Char) :
    ∀ c ∈ ("temp-collect-".toList ++ im).map (fun c => if vmNameChar c then c else '-'),
      vmNameChar c = true := by
  intro c hc
  rcases List.mem_map.1 hc with ⟨x, _, rfl⟩
  by_cases h : vmNameChar x = true
  · rw [if_pos h]; exact h
  · rw [if_neg h]; decide

/-- Normal form of truncated_vm_name: the ":/" replacement never fires
(no colon survives the sanitisation step), and the "." replacement is a
pointwise map. -/
theorem truncated_vm_name_eq (im : List Char) :
    truncated_vm_name im =
      ((("temp-collect-".toList ++ im).map
          (fun c => if vmNameChar c then c else '-')).map
        (fun c => if '.' = c then '-' else c)).take 63 := by
  unfold truncated_vm_name
  simp only []
  have hno : ':' ∉ ("temp-collect-".toList ++ im).map
      (fun c => if vmNameChar c then c else '-') := by
    intro h
    have := vmNameChar_of_mem_sanitized im ':' h
    simp [vmNameChar] at this
  have h1 : pyReplace (("temp-collect-".toList ++ im).map
      (fun c => if vmNameChar c then c else '-')) ":/".toList [] =
      ("temp-collect-".toList ++ im).map (fun c => if vmNameChar c then c else '-') := by
    unfold pyReplace
    exact pyReplaceAux_not_occurs ':' ['/'] [] _ _ hno
  rw [show (":/".toList) = [':', '/'] from rfl] at h1 ⊢
  rw [h1]
  unfold pyReplace
  rw [show (".".toList) = ['.'] from rfl, show ("-".toList) = ['-'] from rfl]
  rw [pyReplaceAux_singleton '.' '-' _ _ (Nat.le_refl _)]

/-- C1 counterexample: for the image name ".", the derived VM name is
"temp-collect-", which ends with a hyphen — the sanitisation first rewrites
the dot to a hyphen (making the name end in two hyphens) and then strips
only one trailing hyphen, so the claim "the derived VM name never ends with
a hyphen" is false. -/
theorem sanitize_vm_name_trailing_hyphen_cex :
    sanitize_vm_name ['.'] = "temp-collect-".toList ∧
    (sanitize_vm_name ['.']).getLast? = some '-' := by
  decide

/-- C1 (amended): for every ASCII image name the derived VM name is at most
63 characters long and contains only characters from [a-zA-Z0-9._-]; the
final step strips exactly one trailing hyphen, so the name can end with a
hyphen only when the truncated sanitised name ends with two consecutive
hyphens. -/
theorem sanitize_vm_name_spec (image_name : List Char)
    (hascii : ∀ c ∈ image_name, c.toNat < 128) :
    (sanitize_vm_name image_name).length ≤ 63 ∧
    (∀ c ∈ sanitize_vm_name image_name, vmNameChar c = true) ∧
    ((sanitize_vm_name image_name).getLast? = some '-' →
      (truncated_vm_name image_name).getLast? = some '-' ∧
      ((truncated_vm_name image_name).dropLast).getLast? = some '-') := by
  have htr_len : (truncated_vm_name image_name).length ≤ 63 := by
    rw [truncated_vm_name_eq]
    simpa [List.length_take] using Nat.min_le_left 63 _
  have htr_mem : ∀ c ∈ truncated_vm_name image_name, vmNameChar c = true := by
    intro c hc
    rw [truncated_vm_name_eq] at hc
    have hc2 := List.take_subset _ _ hc
    rcases List.mem_map.1 hc2 with ⟨x, hx, rfl⟩
    by_cases h : '.' = x
    · rw [if_pos h]; decide
    · rw [if_neg h]; exact vmNameChar_of_mem_sanitized image_name x hx
  simp only [sanitize_vm_name]
  by_cases h : (truncated_vm_name image_name).getLast? = some '-'
  · rw [if_pos h]
    refine ⟨?_, ?_, ?_⟩
    · have := List.length_dropLast (truncated_vm_name image_name)
      omega
    · intro c hc
      exact htr_mem c (List.dropLast_subset _ hc)
    · intro hlast
      exact ⟨h, hlast⟩
  · rw [if_neg h]
    exact ⟨htr_len, htr_mem, fun hlast => absurd hlast h⟩

/-- Witness for sanitize_vm_name_spec at the concrete image name
"debian-12-bookworm-v20240910". -/
theorem sanitize_vm_name_spec_witness :
    (∀ c ∈ "debian-12-bookworm-v20240910".toList, c.toNat < 128) ∧
    ((sanitize_vm_name "debian-12-bookworm-v20240910".toList).length ≤ 63 ∧
     (∀ c ∈ sanitize_vm_name "debian-12-bookworm-v20240910".toList, vmNameChar c = true) ∧
     ((sanitize_vm_name "debian-12-bookworm-v20240910".toList).getLast? = some '-' →
       (truncated_vm_name "debian-12-bookworm-v20240910".toList).getLast? = some '-' ∧
       ((truncated_vm_name "debian-12-bookworm-v20240910".toList).dropLast).getLast? =
         some '-')) :=
  ⟨by decide, sanitize_vm_name_spec _ (by decide)⟩

/-! ## Helper lemmas about the poll loop of create_vm -/

/-- The poll loop itself never issues a deletion: every delete event of a
job trace comes from the cleanup step or the exception handler. -/
theorem pollLoop_count_delete (timeout : Nat) (w : World) :
    ∀ (fuel k : Nat) (r : Except Unit Bool) (tr : List Event),
      pollLoop timeout w fuel k = some (r, tr) → tr.count Event.delete = 0 := by
  intro fuel
  induction fuel with
  | zero =>
    intro k r tr h
    simp [pollLoop] at h
  | succ n ih =>
    intro k r tr h
    simp only [pollLoop] at h
    by_cases h1 : timeout < w.elapsed k
    · rw [if_pos h1] at h
      cases h
      rfl
    · rw [if_neg h1] at h
      by_cases h2 : w.excAt k = true
      · rw [if_pos h2] at h
        cases h
        simp
      · rw [if_neg h2] at h
        by_cases h3 : w.complete k = true
        · rw [if_pos h3] at h
          cases h
          simp
        · rw [if_neg h3] at h
          cases hrec : pollLoop timeout w n (k + 1) with
          | none =>
            rw [hrec] at h
            simp at h
          | some y =>
            obtain ⟨r2, tr2⟩ := y
            rw [hrec] at h
            simp only [Option.some.injEq, Prod.mk.injEq] at h
            obtain ⟨hr2, htr2⟩ := h
            subst htr2
            simpa using ih (k + 1) r2 tr2 hrec

/-- Extra fuel does not change an already determined poll-loop outcome. -/
theorem pollLoop_mono (timeout : Nat) (w : World) :
    ∀ (f₁ k : Nat) (x : Except Unit Bool × List Event),
      pollLoop timeout w f₁ k = some x →
      ∀ f₂, f₁ ≤ f₂ → pollLoop timeout w f₂ k = some x := by
  intro f₁
  induction f₁ with
  | zero =>
    intro k x h
    simp [pollLoop] at h
  | succ n ih =>
    intro k x h f₂ hle
    obtain ⟨m, rfl⟩ : ∃ m, f₂ = m + 1 := ⟨f₂ - 1, by omega⟩
    simp only [pollLoop] at h ⊢
    by_cases h1 : timeout < w.elapsed k
    · rw [if_pos h1] at h ⊢
      exact h
    · rw [if_neg h1] at h ⊢
      by_cases h2 : w.excAt k = true
      · rw [if_pos h2] at h ⊢
        exact h
      · rw [if_neg h2] at h ⊢
        by_cases h3 : w.complete k = true
        · rw [if_pos h3] at h ⊢
          exact h
        · rw [if_neg h3] at h ⊢
          cases hrec : pollLoop timeout w n (k + 1) with
          | none =>
            rw [hrec] at h
            simp at h
          | some y =>
            obtain ⟨r', tr'⟩ := y
            rw [hrec] at h
            rw [ih (k + 1) (r', tr') hrec m (by omega)]
            exact h

/-- Running the poll loop through d quiet iterations (within the timeout,
no exception, no completion signal) prepends d check/sleep pairs to
whatever the loop does from iteration k + d on. -/
theorem pollLoop_quiet_shift (timeout : Nat) (w : World) :
    ∀ (d k fuel : Nat),
      (∀ j, j < d → w.elapsed (k + j) ≤ timeout ∧ w.excAt (k + j) = false ∧
        w.complete (k + j) = false) →
      ∀ (r : Except Unit Bool) (tr : List Event),
        pollLoop timeout w fuel (k + d) = some (r, tr) →
        ∃ tr', pollLoop timeout w (fuel + d) k = some (r, tr') ∧
          tr'.count Event.sleep = d + tr.count Event.sleep ∧
          tr'.count Event.delete = tr.count Event.delete := by
  intro d
  induction d with
  | zero =>
    intro k fuel _ r tr h
    exact ⟨tr, by simpa using h, by simp, rfl⟩
  | succ d ih =>
    intro k fuel hq r tr h
    have h0 := hq 0 (by omega)
    simp only [Nat.add_zero] at h0
    have hq' : ∀ j, j < d → w.elapsed (k + 1 + j) ≤ timeout ∧ w.excAt (k + 1 + j) = false ∧
        w.complete (k + 1 + j) = false := by
      intro j hj
      have hh := hq (j + 1) (by omega)
      rwa [show k + (j + 1) = k + 1 + j by omega] at hh
    have h' : pollLoop timeout w fuel (k + 1 + d) = some (r, tr) := by
      rwa [show k + 1 + d = k + (d + 1) by omega]
    obtain ⟨tr', hpoll, hsleep, hdel⟩ := ih (k + 1) fuel hq' r tr h'
    refine ⟨Event.check k :: Event.sleep :: tr', ?_, ?_, ?_⟩
    · rw [show fuel + (d + 1) = (fuel + d) + 1 by omega]
      simp only [pollLoop]
      rw [if_neg (Nat.not_lt.2 h0.1), if_neg (by simp [h0.2.1]), if_neg (by simp [h0.2.2]),
        hpoll]
    · simp [hsleep]
      omega
    · simp [hdel]

/-- One poll iteration that observes the completion signal. -/
theorem pollLoop_step_complete (timeout : Nat) (w : World) (fuel k : Nat)
    (hel : w.elapsed k ≤ timeout) (hexc : w.excAt k = false) (hcomp : w.complete k = true) :
    pollLoop timeout w (fuel + 1) k = some (Except.ok true, [Event.check k]) := by
  simp only [pollLoop]
  rw [if_neg (Nat.not_lt.2 hel), if_neg (by simp [hexc]), if_pos hcomp]

/-- One poll iteration that observes the timeout. -/
theorem pollLoop_step_timeout (timeout : Nat) (w : World) (fuel k : Nat)
    (ht : timeout < w.elapsed k) :
    pollLoop timeout w (fuel + 1) k = some (Except.ok false, []) := by
  simp only [pollLoop]
  rw [if_pos ht]

/-- One poll iteration whose completion check raises. -/
theorem pollLoop_step_exc (timeout : Nat) (w : World) (fuel k : Nat)
    (hel : w.elapsed k ≤ timeout) (hexc : w.excAt k = true) :
    pollLoop timeout w (fuel + 1) k = some (Except.error (), [Event.check k]) := by
  simp only [pollLoop]
  rw [if_neg (Nat.not_lt.2 hel), if_pos hexc]

/-! ## Claim C2: deletion on every path -/

/-- C2 counterexample: when the create command reports an error (lines
115-118 of kernel_collection.py), create_vm returns False immediately and
its trace contains no deletion command — so the claim that a deletion is
issued on every path, including creation failure, is false. -/
theorem create_vm_create_error_no_delete_cex :
    create_vm 300 1 (World.mk false true (fun _ => false) (fun _ => false) (fun _ => 0)) =
      some (false, [Event.create]) ∧
    ([Event.create].count Event.delete = 0) := by
  decide

/-- C2 (amended): on every terminating execution of create_vm, exactly one
VM deletion command is issued before the job returns, except on the
creation-failure path (create command reported an error and no exception
was raised), where no deletion is issued. -/
theorem create_vm_cleanup_unless_create_error (timeout fuel : Nat) (w : World)
    (res : Bool × List Event) (h : create_vm timeout fuel w = some res) :
    (w.createExc = false ∧ w.createErr = true → res.2.count Event.delete = 0) ∧
    (w.createExc = true ∨ w.createErr = false → res.2.count Event.delete = 1) := by
  by_cases hce : w.createExc = true
  · rw [create_vm, if_pos hce] at h
    simp only [Option.some.injEq] at h
    subst h
    exact ⟨fun hcontra => by simp [hce] at hcontra, fun _ => by decide⟩
  · have hce' : w.createExc = false := by simpa using hce
    rw [create_vm, if_neg hce] at h
    by_cases herr : w.createErr = true
    · rw [if_pos herr] at h
      simp only [Option.some.injEq] at h
      subst h
      refine ⟨fun _ => by decide, fun hcontra => ?_⟩
      rcases hcontra with hc | hc
      · simp [hce'] at hc
      · simp [herr] at hc
    · have herr' : w.createErr = false := by simpa using herr
      rw [if_neg herr] at h
      cases hrec : pollLoop timeout w fuel 0 with
      | none =>
        rw [hrec] at h
        simp at h
      | some y =>
        obtain ⟨r, tr⟩ := y
        rw [hrec] at h
        have htr : tr.count Event.delete = 0 := pollLoop_count_delete timeout w fuel 0 r tr hrec
        refine ⟨fun hcontra => by simp [herr'] at hcontra, fun _ => ?_⟩
        cases r with
        | ok signal =>
          simp only [Option.some.injEq] at h
          subst h
          simp [List.count_append, htr]
        | error e =>
          simp only [Option.some.injEq] at h
          subst h
          simp [List.count_append, htr]

/-- Witness for create_vm_cleanup_unless_create_error: a job whose first
completion check succeeds immediately. -/
theorem create_vm_cleanup_unless_create_error_witness :
    create_vm 300 1 (World.mk false false (fun _ => false) (fun _ => true) (fun _ => 0)) =
      some (true, [Event.create, Event.check 0, Event.delete]) ∧
    (((World.mk false false (fun _ => false) (fun _ => true) (fun _ => 0)).createExc = false ∧
        (World.mk false false (fun _ => false) (fun _ => true) (fun _ => 0)).createErr = true →
        ((true, [Event.create, Event.check 0, Event.delete]).2.count Event.delete = 0)) ∧
      ((World.mk false false (fun _ => false) (fun _ => true) (fun _ => 0)).createExc = true ∨
        (World.mk false false (fun _ => false) (fun _ => true) (fun _ => 0)).createErr = false →
        ((true, [Event.create, Event.check 0, Event.delete]).2.count Event.delete = 1))) :=
  ⟨by decide,
   create_vm_cleanup_unless_create_error 300 1
     (World.mk false false (fun _ => false) (fun _ => true) (fun _ => 0))
     (true, [Event.create, Event.check 0, Event.delete]) (by decide)⟩

/-! ## Claim C3: completion before timeout -/

/-- C3: if the first k poll iterations stay within the timeout and observe
neither an exception nor the completion signal, and iteration k observes
the completion signal within the timeout, then create_vm returns success,
its trace contains exactly k sleep cycles (none after the signal), and
exactly one deletion command is issued. -/
theorem create_vm_completed (timeout fuel k : Nat) (w : World)
    (hce : w.createExc = false) (herr : w.createErr = false)
    (hquiet : ∀ j, j < k → w.elapsed j ≤ timeout ∧ w.excAt j = false ∧ w.complete j = false)
    (hel : w.elapsed k ≤ timeout) (hexc : w.excAt k = false) (hcomp : w.complete k = true)
    (hfuel : k < fuel) :
    ∃ tr, create_vm timeout fuel w = some (true, tr) ∧
      tr.count Event.sleep = k ∧ tr.count Event.delete = 1 := by
  have hstep : pollLoop timeout w (0 + 1) k = some (Except.ok true, [Event.check k]) :=
    pollLoop_step_complete timeout w 0 k hel hexc hcomp
  obtain ⟨tr, hpoll, hsleep, hdel⟩ :=
    pollLoop_quiet_shift timeout w k 0 (0 + 1) (by simpa using hquiet)
      (Except.ok true) [Event.check k] (by simpa using hstep)
  have hpoll2 : pollLoop timeout w fuel 0 = some (Except.ok true, tr) :=
    pollLoop_mono timeout w (0 + 1 + k) 0 _ hpoll fuel (by omega)
  refine ⟨Event.create :: (tr ++ [Event.delete]), ?_, ?_, ?_⟩
  · rw [create_vm, if_neg (by simp [hce]), if_neg (by simp [herr]), hpoll2]
  · simp only [List.count_cons, List.count_append] at *
    simp at hsleep
    simp [hsleep]
  · simp only [List.count_cons, List.count_append] at *
    simp at hdel
    simp [hdel]

/-- Witness for create_vm_completed: the completion signal is observed at
the very first poll check. -/
theorem create_vm_completed_witness :
    ((World.mk false false (fun _ => false) (fun _ => true) (fun _ => 0)).createExc = false) ∧
    ((World.mk false false (fun _ => false) (fun _ => true) (fun _ => 0)).elapsed 0 ≤ 300) ∧
    (∃ tr, create_vm 300 1 (World.mk false false (fun _ => false) (fun _ => true)
        (fun _ => 0)) = some (true, tr) ∧
      tr.count Event.sleep = 0 ∧ tr.count Event.delete = 1) :=
  ⟨by decide, by decide,
   create_vm_completed 300 1 0 (World.mk false false (fun _ => false) (fun _ => true)
       (fun _ => 0))
     (by decide) (by decide) (fun j hj => absurd hj (Nat.not_lt_zero j))
     (by decide) (by decide) (by decide) (by decide)⟩

/-! ## Claim C4: timeout -/

/-- C4: if every poll iteration before K stays within the timeout and
observes neither an exception nor the completion signal, and at iteration K
the elapsed time has exceeded the timeout, then create_vm returns failure
(a value, so sibling jobs and the batch are unaffected), after exactly K
sleep cycles and exactly one deletion command. -/
theorem create_vm_timed_out (timeout fuel K : Nat) (w : World)
    (hce : w.createExc = false) (herr : w.createErr = false)
    (hquiet : ∀ j, j < K → w.elapsed j ≤ timeout ∧ w.excAt j = false ∧ w.complete j = false)
    (ht : timeout < w.elapsed K)
    (hfuel : K < fuel) :
    ∃ tr, create_vm timeout fuel w = some (false, tr) ∧
      tr.count Event.sleep = K ∧ tr.count Event.delete = 1 := by
  have hstep : pollLoop timeout w (0 + 1) K = some (Except.ok false, []) :=
    pollLoop_step_timeout timeout w 0 K ht
  obtain ⟨tr, hpoll, hsleep, hdel⟩ :=
    pollLoop_quiet_shift timeout w K 0 (0 + 1) (by simpa using hquiet)
      (Except.ok false) [] (by simpa using hstep)
  have hpoll2 : pollLoop timeout w fuel 0 = some (Except.ok false, tr) :=
    pollLoop_mono timeout w (0 + 1 + K) 0 _ hpoll fuel (by omega)
  refine ⟨Event.create :: (tr ++ [Event.delete]), ?_, ?_, ?_⟩
  · rw [create_vm, if_neg (by simp [hce]), if_neg (by simp [herr]), hpoll2]
  · simp only [List.count_cons, List.count_append] at *
    simp at hsleep
    simp [hsleep]
  · simp only [List.count_cons, List.count_append] at *
    simp at hdel
    simp [hdel]

/-- Witness for create_vm_timed_out: the elapsed time already exceeds the
timeout at the first poll check. -/
theorem create_vm_timed_out_witness :
    (300 < (World.mk false false (fun _ => false) (fun _ => false)
        (fun _ => 301)).elapsed 0) ∧
    (∃ tr, create_vm 300 1 (World.mk false false (fun _ => false) (fun _ => false)
        (fun _ => 301)) = some (false, tr) ∧
      tr.count Event.sleep = 0 ∧ tr.count Event.delete = 1) :=
  ⟨by decide,
   create_vm_timed_out 300 1 0 (World.mk false false (fun _ => false) (fun _ => false)
       (fun _ => 301))
     (by decide) (by decide) (fun j hj => absurd hj (Nat.not_lt_zero j))
     (by decide) (by decide)⟩

/-! ## Claim C5: exceptions are caught -/

/-- C5: any modelled runtime exception raised inside create_vm after the
VM name is derived is caught by the except handler: an exception during the
create command returns False with a best-effort deletion, and an exception
raised by the completion check at poll iteration k (after k quiet
iterations) returns False with exactly one deletion; no exception
propagates out of create_vm. -/
theorem create_vm_exception_cleanup (timeout fuel k : Nat) (w : World) :
    (w.createExc = true →
      create_vm timeout fuel w = some (false, [Event.create, Event.delete])) ∧
    (w.createExc = false → w.createErr = false →
      (∀ j, j < k → w.elapsed j ≤ timeout ∧ w.excAt j = false ∧ w.complete j = false) →
      w.elapsed k ≤ timeout → w.excAt k = true → k < fuel →
      ∃ tr, create_vm timeout fuel w = some (false, tr) ∧
        tr.count Event.delete = 1 ∧ tr.count Event.sleep = k) := by
  constructor
  · intro hce
    rw [create_vm, if_pos hce]
  · intro hce herr hquiet hel hexc hfuel
    have hstep : pollLoop timeout w (0 + 1) k = some (Except.error (), [Event.check k]) :=
      pollLoop_step_exc timeout w 0 k hel hexc
    obtain ⟨tr, hpoll, hsleep, hdel⟩ :=
      pollLoop_quiet_shift timeout w k 0 (0 + 1) (by simpa using hquiet)
        (Except.error ()) [Event.check k] (by simpa using hstep)
    have hpoll2 : pollLoop timeout w fuel 0 = some (Except.error (), tr) :=
      pollLoop_mono timeout w (0 + 1 + k) 0 _ hpoll fuel (by omega)
    refine ⟨Event.create :: (tr ++ [Event.delete]), ?_, ?_, ?_⟩
    · rw [create_vm, if_neg (by simp [hce]), if_neg (by simp [herr]), hpoll2]
    · simp only [List.count_cons, List.count_append] at *
      simp at hdel
      simp [hdel]
    · simp only [List.count_cons, List.count_append] at *
      simp at hsleep
      simp [hsleep]

/-- Witness for create_vm_exception_cleanup: one run whose create command
raises, and one whose first completion check raises. -/
theorem create_vm_exception_cleanup_witness :
    ((World.mk true false (fun _ => false) (fun _ => false) (fun _ => 0)).createExc = true ∧
      create_vm 300 1 (World.mk true false (fun _ => false) (fun _ => false) (fun _ => 0)) =
        some (false, [Event.create, Event.delete])) ∧
    ((World.mk false false (fun _ => true) (fun _ => false) (fun _ => 0)).excAt 0 = true ∧
      (∃ tr, create_vm 300 1 (World.mk false false (fun _ => true) (fun _ => false)
          (fun _ => 0)) = some (false, tr) ∧
        tr.count Event.delete = 1 ∧ tr.count Event.sleep = 0)) :=
  ⟨⟨by decide,
    (create_vm_exception_cleanup 300 1 0
        (World.mk true false (fun _ => false) (fun _ => false) (fun _ => 0))).1 (by decide)⟩,
   ⟨by decide,
    (create_vm_exception_cleanup 300 1 0
        (World.mk false false (fun _ => true) (fun _ => false) (fun _ => 0))).2
      (by decide) (by decide) (fun j hj => absurd hj (Nat.not_lt_zero j))
      (by decide) (by decide) (by decide)⟩⟩

/-! ## Claim C6: CSV row filtering -/

/-- C6 counterexample: the CSV data row ["", "x"] has only one non-empty
field, yet process_images dispatches a job for it — the code only requires
at least two fields and a non-empty second field (line 170), so the claim
that every row with fewer than two non-empty fields is skipped is false. -/
theorem parse_images_malformed_row_cex :
    parse_images [["image_project".toList, "image_name".toList], [[], "x".toList]] =
      some [([], ['x'])] ∧
    ([([] : List Char), "x".toList].countP (fun f => !(pyStrip f).isEmpty) = 1) := by
  decide

/-- The length of the dispatched job list equals the number of data rows
with at least two fields and a non-empty (after stripping) second field. -/
theorem length_filterMap_row_to_image (rows : List (List (List Char))) :
    (rows.filterMap row_to_image).length =
      rows.countP (fun row =>
        match row with
        | _ :: f1 :: _ => !(pyStrip f1).isEmpty
        | _ => false) := by
  induction rows with
  | nil => rfl
  | cons r rest ih =>
    match r with
    | [] => simp [List.filterMap_cons, List.countP_cons, row_to_image, ih]
    | [f0] => simp [List.filterMap_cons, List.countP_cons, row_to_image, ih]
    | f0 :: f1 :: rtail =>
      by_cases h : (pyStrip f1).isEmpty = true
      · simp [List.filterMap_cons, List.countP_cons, row_to_image, h, ih]
      · simp [List.filterMap_cons, List.countP_cons, row_to_image, h, ih]

/-- C6 (amended): the header row is skipped and exactly one job is
dispatched per data row that has at least two fields and a non-empty second
field after stripping (rows with fewer than two fields, or with an empty
second field, are skipped; an empty FIRST field does not disqualify a row);
in particular a CSV with a header, three valid rows and one single-field
row dispatches exactly three jobs. -/
theorem parse_images_spec :
    (∀ (hdr : List (List Char)) (rows : List (List (List Char))),
      (parse_images (hdr :: rows)).map List.length =
        some (rows.countP (fun row =>
          match row with
          | _ :: f1 :: _ => !(pyStrip f1).isEmpty
          | _ => false))) ∧
    ((parse_images [["image_project".toList, "image_name".toList],
        ["p1".toList, "n1".toList], ["p2".toList, "n2".toList], ["p3".toList, "n3".toList],
        ["lonely".toList]]).map List.length = some 3) := by
  constructor
  · intro hdr rows
    simp [parse_images, length_filterMap_row_to_image]
  · decide

/-! ## Claim C7: the bucket ensurer -/

/-- C7 counterexample: two environments with an absent bucket in which the
three configuration operations are not issued exactly once each, refuting
the claim: with no determinable project, ensure_gcs_bucket exits the
process (sys.exit(1), line 45) before issuing any of them; and when
gsutil mb fails, the CalledProcessError raised by its check=True
run_command (line 47) aborts the sequence, leaving versioning-enable and
lifecycle-set never issued. -/
theorem ensure_gcs_bucket_not_exactly_once_cex :
    bucketAbsent [] = true ∧
    ensure_gcs_bucket (BucketWorld.mk [] false [] false false false) =
      (BucketOutcome.fatalExit, []) ∧
    (ensure_gcs_bucket (BucketWorld.mk [] false [] false false false)).2.count
      BucketOp.mb ≠ 1 ∧
    ensure_gcs_bucket (BucketWorld.mk [] false "my-project".toList true false false) =
      (BucketOutcome.raised, [BucketOp.mb]) ∧
    (ensure_gcs_bucket
        (BucketWorld.mk [] false "my-project".toList true false false)).2.count
      BucketOp.versioningSet = 0 := by
  decide

/-- C7 (amended): when the existence probe indicates the bucket is absent,
an active project is determined, and none of the commands fails,
ensure_gcs_bucket issues the bucket-create, versioning-enable and
lifecycle-set operations exactly once each; when the probe indicates the
bucket exists, it issues none of them; when the bucket is absent but no
project is determined, it exits fatally having issued none; and a failing
command raises CalledProcessError, aborting the sequence so that the
commands before and including the failing one are issued once and every
later one not at all — in every environment each of the three operations
is issued at most once. -/
theorem ensure_gcs_bucket_spec (w : BucketWorld) :
    (bucketAbsent w.lsOutput = true → w.projectExc = false →
      (pyStrip w.projectOutput).isEmpty = false →
      w.mbExc = false → w.versioningExc = false → w.lifecycleExc = false →
      ensure_gcs_bucket w =
        (BucketOutcome.ok,
          [BucketOp.mb, BucketOp.versioningSet, BucketOp.lifecycleSet]) ∧
      ∀ op : BucketOp, (ensure_gcs_bucket w).2.count op = 1) ∧
    (bucketAbsent w.lsOutput = false →
      ensure_gcs_bucket w = (BucketOutcome.ok, [])) ∧
    (bucketAbsent w.lsOutput = true → w.projectExc = false →
      (pyStrip w.projectOutput).isEmpty = true →
      ensure_gcs_bucket w = (BucketOutcome.fatalExit, [])) ∧
    (bucketAbsent w.lsOutput = true → w.projectExc = true →
      ensure_gcs_bucket w = (BucketOutcome.raised, [])) ∧
    (bucketAbsent w.lsOutput = true → w.projectExc = false →
      (pyStrip w.projectOutput).isEmpty = false → w.mbExc = true →
      ensure_gcs_bucket w = (BucketOutcome.raised, [BucketOp.mb])) ∧
    (bucketAbsent w.lsOutput = true → w.projectExc = false →
      (pyStrip w.projectOutput).isEmpty = false → w.mbExc = false →
      w.versioningExc = true →
      ensure_gcs_bucket w =
        (BucketOutcome.raised, [BucketOp.mb, BucketOp.versioningSet])) ∧
    (bucketAbsent w.lsOutput = true → w.projectExc = false →
      (pyStrip w.projectOutput).isEmpty = false → w.mbExc = false →
      w.versioningExc = false → w.lifecycleExc = true →
      ensure_gcs_bucket w =
        (BucketOutcome.raised,
          [BucketOp.mb, BucketOp.versioningSet, BucketOp.lifecycleSet])) ∧
    (∀ op : BucketOp, (ensure_gcs_bucket w).2.count op ≤ 1) := by
  refine ⟨?_, ?_, ?_, ?_, ?_, ?_, ?_, ?_⟩
  · intro hA hPE hPemp hMb hV hL
    have heq : ensure_gcs_bucket w =
        (BucketOutcome.ok,
          [BucketOp.mb, BucketOp.versioningSet, BucketOp.lifecycleSet]) := by
      simp only [ensure_gcs_bucket]
      rw [if_pos hA, if_neg (by simp [hPE]), if_neg (by simp [hPemp]),
        if_neg (by simp [hMb]), if_neg (by simp [hV]), if_neg (by simp [hL])]
    exact ⟨heq, fun op => by rw [heq]; cases op <;> decide⟩
  · intro hA
    simp only [ensure_gcs_bucket]
    rw [if_neg (by simp [hA])]
  · intro hA hPE hPemp
    simp only [ensure_gcs_bucket]
    rw [if_pos hA, if_neg (by simp [hPE]), if_pos hPemp]
  · intro hA hPE
    simp only [ensure_gcs_bucket]
    rw [if_pos hA, if_pos hPE]
  · intro hA hPE hPemp hMb
    simp only [ensure_gcs_bucket]
    rw [if_pos hA, if_neg (by simp [hPE]), if_neg (by simp [hPemp]), if_pos hMb]
  · intro hA hPE hPemp hMb hV
    simp only [ensure_gcs_bucket]
    rw [if_pos hA, if_neg (by simp [hPE]), if_neg (by simp [hPemp]),
      if_neg (by simp [hMb]), if_pos hV]
  · intro hA hPE hPemp hMb hV hL
    simp only [ensure_gcs_bucket]
    rw [if_pos hA, if_neg (by simp [hPE]), if_neg (by simp [hPemp]),
      if_neg (by simp [hMb]), if_neg (by simp [hV]), if_pos hL]
  · intro op
    by_cases hA : bucketAbsent w.lsOutput = true
    · by_cases hPE : w.projectExc = true
      · have heq : ensure_gcs_bucket w = (BucketOutcome.raised, []) := by
          simp only [ensure_gcs_bucket]
          rw [if_pos hA, if_pos hPE]
        rw [heq]; cases op <;> decide
      · by_cases hPemp : (pyStrip w.projectOutput).isEmpty = true
        · have heq : ensure_gcs_bucket w = (BucketOutcome.fatalExit, []) := by
            simp only [ensure_gcs_bucket]
            rw [if_pos hA, if_neg hPE, if_pos hPemp]
          rw [heq]; cases op <;> decide
        · by_cases hMb : w.mbExc = true
          · have heq : ensure_gcs_bucket w = (BucketOutcome.raised, [BucketOp.mb]) := by
              simp only [ensure_gcs_bucket]
              rw [if_pos hA, if_neg hPE, if_neg hPemp, if_pos hMb]
            rw [heq]; cases op <;> decide
          · by_cases hV : w.versioningExc = true
            · have heq : ensure_gcs_bucket w =
                  (BucketOutcome.raised, [BucketOp.mb, BucketOp.versioningSet]) := by
                simp only [ensure_gcs_bucket]
                rw [if_pos hA, if_neg hPE, if_neg hPemp, if_neg hMb, if_pos hV]
              rw [heq]; cases op <;> decide
            · by_cases hL : w.lifecycleExc = true
              · have heq : ensure_gcs_bucket w =
                    (BucketOutcome.raised,
                      [BucketOp.mb, BucketOp.versioningSet, BucketOp.lifecycleSet]) := by
                  simp only [ensure_gcs_bucket]
                  rw [if_pos hA, if_neg hPE, if_neg hPemp, if_neg hMb, if_neg hV,
                    if_pos hL]
                rw [heq]; cases op <;> decide
              · have heq : ensure_gcs_bucket w =
                    (BucketOutcome.ok,
                      [BucketOp.mb, BucketOp.versioningSet, BucketOp.lifecycleSet]) := by
                  simp only [ensure_gcs_bucket]
                  rw [if_pos hA, if_neg hPE, if_neg hPemp, if_neg hMb, if_neg hV,
                    if_neg hL]
                rw [heq]; cases op <;> decide
    · have heq : ensure_gcs_bucket w = (BucketOutcome.ok, []) := by
        simp only [ensure_gcs_bucket]
        rw [if_neg hA]
      rw [heq]; cases op <;> decide

/-- Witness for ensure_gcs_bucket_spec: an empty probe output (absent
bucket), the project "my-project", and no command failure — the three
operations are issued exactly once each. -/
theorem ensure_gcs_bucket_spec_witness :
    (bucketAbsent [] = true ∧
      (pyStrip "my-project".toList).isEmpty = false) ∧
    (ensure_gcs_bucket (BucketWorld.mk [] false "my-project".toList false false false) =
        (BucketOutcome.ok,
          [BucketOp.mb, BucketOp.versioningSet, BucketOp.lifecycleSet]) ∧
      ∀ op : BucketOp,
        (ensure_gcs_bucket
            (BucketWorld.mk [] false "my-project".toList false false false)).2.count op =
          1) :=
  ⟨by decide,
   (ensure_gcs_bucket_spec (BucketWorld.mk [] false "my-project".toList false false false)).1
     (by decide) (by decide) (by decide) (by decide) (by decide) (by decide)⟩

/-! ## Claim C8: the summary counters -/

/-- The counter fold of process_images adds exactly one, to exactly one of
the two counters, per job result. -/
theorem tally_sum :
    ∀ (results : List Bool) (s f : Nat),
      ((results.foldl (fun acc r => if r then (acc.1 + 1, acc.2) else (acc.1, acc.2 + 1))
          (s, f)).1 +
        (results.foldl (fun acc r => if r then (acc.1 + 1, acc.2) else (acc.1, acc.2 + 1))
          (s, f)).2) = s + f + results.length := by
  intro results
  induction results with
  | nil =>
    intro s f
    simp
  | cons r rest ih =>
    intro s f
    cases r
    · have hh := ih s (f + 1)
      simp only [List.foldl_cons] at *
      simp only [List.length_cons]
      simp at hh ⊢
      omega
    · have hh := ih (s + 1) f
      simp only [List.foldl_cons] at *
      simp only [List.length_cons]
      simp at hh ⊢
      omega

/-- C8: whenever process_images produces summary counters, the successful
and failed counters sum to exactly the number of dispatched jobs, whatever
the individual job outcomes are. -/
theorem process_images_counters (rows : List (List (List Char)))
    (outcome : List Char × List Char → Bool) (res : Nat × Nat)
    (h : process_images rows outcome = some res) :
    (parse_images rows).map List.length = some (res.1 + res.2) := by
  rw [process_images] at h
  cases hp : parse_images rows with
  | none =>
    rw [hp] at h
    simp at h
  | some images =>
    rw [hp] at h
    cases images with
    | nil => simp at h
    | cons a l =>
      simp only [Option.some.injEq] at h
      subst h
      have hh := tally_sum ((a :: l).map outcome) 0 0
      simp only [List.length_map] at hh
      simp only [Option.map_some', Option.some.injEq, tally]
      omega

/-- Witness for process_images_counters: a header plus two valid rows, one
job succeeding and one failing. -/
theorem process_images_counters_witness :
    process_images [["image_project".toList, "image_name".toList],
        ["p".toList, "a".toList], ["q".toList, "b".toList]]
      (fun img => img.2 == "a".toList) = some (1, 1) ∧
    (parse_images [["image_project".toList, "image_name".toList],
        ["p".toList, "a".toList], ["q".toList, "b".toList]]).map List.length =
      some ((1, 1).1 + (1, 1).2) :=
  ⟨by decide,
   process_images_counters _ (fun img => img.2 == "a".toList) (1, 1) (by decide)⟩

/-! ## Claim C9: parse_config is total with a fixed key set and value range -/

/-- The init_stack value computed by parse_config is always one of none,
pattern, zero, unknown. -/
theorem init_stack_of_mem (config_lines : List (List Char)) :
    init_stack_of config_lines ∈
      ["none".toList, "pattern".toList, "zero".toList, "unknown".toList] := by
  cases hf : STACK_OPTIONS.find? (fun p => get_config_status p.1 config_lines == some true) with
  | none =>
    simp only [init_stack_of, hf]
    split
    · decide
    · decide
  | some p =>
    obtain ⟨po, pv⟩ := p
    have hmem : (po, pv) ∈ STACK_OPTIONS := List.mem_of_find?_eq_some hf
    have hc : (po = "CONFIG_INIT_STACK_NONE".toList ∧ pv = "none".toList) ∨
        (po = "CONFIG_INIT_STACK_ALL_PATTERN".toList ∧ pv = "pattern".toList) ∨
        (po = "CONFIG_INIT_STACK_ALL_ZERO".toList ∧ pv = "zero".toList) := by
      simpa [STACK_OPTIONS, Prod.ext_iff] using hmem
    simp only [init_stack_of, hf]
    rcases hc with ⟨h1, h2⟩ | ⟨h1, h2⟩ | ⟨h1, h2⟩ <;> subst h1 <;> subst h2 <;>
      (split
       · decide
       · decide)

/-- The init_heap value computed by parse_config is always one of zero,
none, unknown. -/
theorem init_heap_of_mem (config_lines : List (List Char)) :
    init_heap_of config_lines ∈ ["zero".toList, "none".toList, "unknown".toList] := by
  cases hg : get_config_status HEAP_OPTION config_lines with
  | none =>
    simp only [init_heap_of, hg]
    decide
  | some b =>
    cases b <;> (simp only [init_heap_of, hg]; decide)

/-- C9: for every file stem and every outcome of reading the file
(including a read failure, modelled by none), parse_config returns a
summary — never an exception — whose record has exactly the fields name,
init_stack and init_heap, with init_stack in {none, pattern, zero, unknown}
and init_heap in {zero, none, unknown}. -/
theorem parse_config_total_range (stem : List Char) (content : Option (List Char)) :
    (parse_config stem content).name = stem ∧
    (parse_config stem content).init_stack ∈
      ["none".toList, "pattern".toList, "zero".toList, "unknown".toList] ∧
    (parse_config stem content).init_heap ∈
      ["zero".toList, "none".toList, "unknown".toList] := by
  cases content with
  | none =>
    refine ⟨rfl, ?_, ?_⟩
    · show DEFAULT_VALUE ∈ _
      decide
    · show DEFAULT_VALUE ∈ _
      decide
  | some text =>
    refine ⟨rfl, ?_, ?_⟩
    · show init_stack_of (config_lines_of text) ∈ _
      exact init_stack_of_mem _
    · show init_heap_of (config_lines_of text) ∈ _
      exact init_heap_of_mem _

/-! ## Claim C10: stack option priority -/

/-- The first-match search of the stack loop when NONE is set to y. -/
theorem stack_find_none_first (cl : List (List Char))
    (h1 : get_config_status "CONFIG_INIT_STACK_NONE".toList cl = some true) :
    STACK_OPTIONS.find? (fun p => get_config_status p.1 cl == some true) =
      some ("CONFIG_INIT_STACK_NONE".toList, "none".toList) := by
  simp only [STACK_OPTIONS]
  exact List.find?_cons_of_pos _ (beq_iff_eq.2 h1)

/-- The first-match search when NONE is not set to y but ALL_PATTERN is. -/
theorem stack_find_pattern_second (cl : List (List Char))
    (h1 : ¬ get_config_status "CONFIG_INIT_STACK_NONE".toList cl = some true)
    (h2 : get_config_status "CONFIG_INIT_STACK_ALL_PATTERN".toList cl = some true) :
    STACK_OPTIONS.find? (fun p => get_config_status p.1 cl == some true) =
      some ("CONFIG_INIT_STACK_ALL_PATTERN".toList, "pattern".toList) := by
  have hstep : STACK_OPTIONS.find? (fun p => get_config_status p.1 cl == some true) =
      List.find? (fun p => get_config_status p.1 cl == some true)
        [("CONFIG_INIT_STACK_ALL_PATTERN".toList, "pattern".toList),
         ("CONFIG_INIT_STACK_ALL_ZERO".toList, "zero".toList)] := by
    simp only [STACK_OPTIONS]
    exact List.find?_cons_of_neg _ (fun hb => h1 (beq_iff_eq.1 hb))
  rw [hstep]
  exact List.find?_cons_of_pos _ (beq_iff_eq.2 h2)

/-- The first-match search when only ALL_ZERO is set to y. -/
theorem stack_find_zero_third (cl : List (List Char))
    (h1 : ¬ get_config_status "CONFIG_INIT_STACK_NONE".toList cl = some true)
    (h2 : ¬ get_config_status "CONFIG_INIT_STACK_ALL_PATTERN".toList cl = some true)
    (h3 : get_config_status "CONFIG_INIT_STACK_ALL_ZERO".toList cl = some true) :
    STACK_OPTIONS.find? (fun p => get_config_status p.1 cl == some true) =
      some ("CONFIG_INIT_STACK_ALL_ZERO".toList, "zero".toList) := by
  have hstep : STACK_OPTIONS.find? (fun p => get_config_status p.1 cl == some true) =
      List.find? (fun p => get_config_status p.1 cl == some true)
        [("CONFIG_INIT_STACK_ALL_ZERO".toList, "zero".toList)] := by
    have hstep1 : STACK_OPTIONS.find? (fun p => get_config_status p.1 cl == some true) =
        List.find? (fun p => get_config_status p.1 cl == some true)
          [("CONFIG_INIT_STACK_ALL_PATTERN".toList, "pattern".toList),
           ("CONFIG_INIT_STACK_ALL_ZERO".toList, "zero".toList)] := by
      simp only [STACK_OPTIONS]
      exact List.find?_cons_of_neg _ (fun hb => h1 (beq_iff_eq.1 hb))
    rw [hstep1]
    exact List.find?_cons_of_neg _ (fun hb => h2 (beq_iff_eq.1 hb))
  rw [hstep]
  exact List.find?_cons_of_pos _ (beq_iff_eq.2 h3)

/-- The first-match search finds nothing when all three stack options are
explicitly not set. -/
theorem stack_find_all_not_set (cl : List (List Char))
    (hN : get_config_status "CONFIG_INIT_STACK_NONE".toList cl = some false)
    (hP : get_config_status "CONFIG_INIT_STACK_ALL_PATTERN".toList cl = some false)
    (hZ : get_config_status "CONFIG_INIT_STACK_ALL_ZERO".toList cl = some false) :
    STACK_OPTIONS.find? (fun p => get_config_status p.1 cl == some true) = none := by
  rw [List.find?_eq_none]
  intro x hx
  have hc : x = ("CONFIG_INIT_STACK_NONE".toList, "none".toList) ∨
      x = ("CONFIG_INIT_STACK_ALL_PATTERN".toList, "pattern".toList) ∨
      x = ("CONFIG_INIT_STACK_ALL_ZERO".toList, "zero".toList) := by
    simpa [STACK_OPTIONS, Prod.ext_iff, Prod.eq_iff_fst_eq_snd_eq] using hx
  rcases hc with rfl | rfl | rfl <;> intro hb
  · have hx2 := beq_iff_eq.1 hb
    rw [hN] at hx2
    simp at hx2
  · have hx2 := beq_iff_eq.1 hb
    rw [hP] at hx2
    simp at hx2
  · have hx2 := beq_iff_eq.1 hb
    rw [hZ] at hx2
    simp at hx2

/-- C10: parse_config reports the first stack option set to y in the fixed
order NONE, ALL_PATTERN, ALL_ZERO of STACK_OPTIONS, and reports none
(rather than unknown) when no option is set to y but all three are
explicitly marked not set. -/
theorem parse_config_stack_priority (stem text : List Char) :
    (get_config_status "CONFIG_INIT_STACK_NONE".toList (config_lines_of text) = some true →
      (parse_config stem (some text)).init_stack = "none".toList) ∧
    (get_config_status "CONFIG_INIT_STACK_NONE".toList (config_lines_of text) ≠ some true →
      get_config_status "CONFIG_INIT_STACK_ALL_PATTERN".toList (config_lines_of text) =
        some true →
      (parse_config stem (some text)).init_stack = "pattern".toList) ∧
    (get_config_status "CONFIG_INIT_STACK_NONE".toList (config_lines_of text) ≠ some true →
      get_config_status "CONFIG_INIT_STACK_ALL_PATTERN".toList (config_lines_of text) ≠
        some true →
      get_config_status "CONFIG_INIT_STACK_ALL_ZERO".toList (config_lines_of text) =
        some true →
      (parse_config stem (some text)).init_stack = "zero".toList) ∧
    ((∀ opt ∈ STACK_OPTIONS,
        get_config_status opt.1 (config_lines_of text) = some false) →
      (parse_config stem (some text)).init_stack = "none".toList) := by
  refine ⟨?_, ?_, ?_, ?_⟩
  · intro h1
    show init_stack_of (config_lines_of text) = "none".toList
    rw [init_stack_of, stack_find_none_first _ h1]
    split
    · rfl
    · rfl
  · intro h1 h2
    show init_stack_of (config_lines_of text) = "pattern".toList
    rw [init_stack_of, stack_find_pattern_second _ h1 h2]
    split
    · next hcond =>
      simp at hcond
      exact absurd hcond.1 (by decide)
    · rfl
  · intro h1 h2 h3
    show init_stack_of (config_lines_of text) = "zero".toList
    rw [init_stack_of, stack_find_zero_third _ h1 h2 h3]
    split
    · next hcond =>
      simp at hcond
      exact absurd hcond.1 (by decide)
    · rfl
  · intro hall
    have hN := hall ("CONFIG_INIT_STACK_NONE".toList, "none".toList) (by decide)
    have hP := hall ("CONFIG_INIT_STACK_ALL_PATTERN".toList, "pattern".toList) (by decide)
    have hZ := hall ("CONFIG_INIT_STACK_ALL_ZERO".toList, "zero".toList) (by decide)
    show init_stack_of (config_lines_of text) = "none".toList
    rw [init_stack_of, stack_find_all_not_set _ hN hP hZ]
    split
    · rfl
    · next hcond =>
      refine absurd ?_ hcond
      show (DEFAULT_VALUE == DEFAULT_VALUE &&
          ((get_config_status "CONFIG_INIT_STACK_NONE".toList (config_lines_of text) ==
              some false) &&
           ((get_config_status "CONFIG_INIT_STACK_ALL_PATTERN".toList (config_lines_of text) ==
              some false) &&
            ((get_config_status "CONFIG_INIT_STACK_ALL_ZERO".toList (config_lines_of text) ==
              some false) && true)))) = true
      rw [beq_iff_eq.2 hN, beq_iff_eq.2 hP, beq_iff_eq.2 hZ]
      decide

/-- Witness for parse_config_stack_priority: a config text that sets both
ALL_PATTERN and ALL_ZERO, for which the PATTERN value wins. -/
theorem parse_config_stack_priority_witness :
    (get_config_status "CONFIG_INIT_STACK_NONE".toList
        (config_lines_of "CONFIG_INIT_STACK_ALL_PATTERN=y\nCONFIG_INIT_STACK_ALL_ZERO=y".toList) ≠
      some true) ∧
    (get_config_status "CONFIG_INIT_STACK_ALL_PATTERN".toList
        (config_lines_of "CONFIG_INIT_STACK_ALL_PATTERN=y\nCONFIG_INIT_STACK_ALL_ZERO=y".toList) =
      some true) ∧
    (parse_config "s".toList
        (some "CONFIG_INIT_STACK_ALL_PATTERN=y\nCONFIG_INIT_STACK_ALL_ZERO=y".toList)).init_stack =
      "pattern".toList :=
  ⟨by decide, by decide,
   (parse_config_stack_priority "s".toList
       "CONFIG_INIT_STACK_ALL_PATTERN=y\nCONFIG_INIT_STACK_ALL_ZERO=y".toList).2.1
     (by decide) (by decide)⟩
